import Mathlib

/-!
Shallow embedding of `src/bandit.py` (repository detrin/najdi-hospodu).

Conventions of the embedding:
* Python floats are modelled as `ℚ` wherever only field operations occur
  (belief state, rewards, wait times); expressions involving `math.sqrt` /
  `math.log` are modelled in `ℝ` with the rational state cast in.
* A Python method that can `raise` is modelled as a function into
  `Except String _`; a raise before any mutation corresponds to returning
  `.error` without producing a successor state.
* Calls to `random.random()`, `random.randint(0, n-1)` and
  `random.choice(candidates)` are modelled by oracle arguments supplied by
  the caller: a rational `u ∈ [0,1)` for `random.random()`, and an index
  that is reduced modulo the size of the sampled collection.
* `time.sleep` and `print` have no effect on the modelled state and are
  dropped; the `waiting_time` accumulation that accompanies each sleep is
  kept exactly as in the source.
-/

/-- State of `EpsilonGreedyBandit` (`src/bandit.py` lines 10-15). -/
structure EpsilonGreedyBandit where
  arms : List ℚ
  epsilon : ℚ
  q_values : List ℚ
  counts : List ℕ
deriving DecidableEq, Repr

/-- `EpsilonGreedyBandit.update` (lines 24-30): validate the reward, bump the
pull count, fold the reward into the running mean. -/
def EpsilonGreedyBandit.update (b : EpsilonGreedyBandit) (arm_index : ℕ)
    (reward : ℚ) : Except String EpsilonGreedyBandit :=
  if ¬(0 ≤ reward ∧ reward ≤ 1) then
    .error "Reward must be in the range [0, 1]."
  else
    let counts := b.counts.set arm_index (b.counts.getD arm_index 0 + 1)
    let n : ℚ := (counts.getD arm_index 0 : ℚ)
    let old_q := b.q_values.getD arm_index 0
    .ok { b with
          counts := counts
          q_values := b.q_values.set arm_index (((n - 1) * old_q + reward) / n) }

/-- State of `EpsilonFirstBandit` (lines 40-47). -/
structure EpsilonFirstBandit where
  arms : List ℚ
  exploration_steps : ℕ
  epsilon : ℚ
  q_values : List ℚ
  counts : List ℕ
  step : ℕ
deriving DecidableEq, Repr

/-- Fresh `EpsilonFirstBandit` as built by `__init__` (lines 41-47). -/
def EpsilonFirstBandit.mk0 (arms : List ℚ) (exploration_steps : ℕ)
    (epsilon : ℚ) : EpsilonFirstBandit :=
  { arms := arms
    exploration_steps := exploration_steps
    epsilon := epsilon
    q_values := List.replicate arms.length 0
    counts := List.replicate arms.length 0
    step := 0 }

/-- Python `max` over a list, with a default for the empty list (Python would
raise there; every use below is on a non-empty list). -/
def listMax {α : Type} [LinearOrder α] (d : α) : List α → α
  | [] => d
  | x :: xs => xs.foldl max x

/-- `EpsilonFirstBandit.select_arm` (lines 49-56).  Oracle arguments: `u` is
the value of `random.random()`, `randArm` picks the uniform arm, `pick` picks
among the greedy candidates.  Note that in the source `self.step += 1` is
executed only on the arg-max branch (line 55), after the early `return` of
the exploration branch. -/
def EpsilonFirstBandit.select_arm (b : EpsilonFirstBandit) (u : ℚ)
    (randArm pick : ℕ) : ℕ × EpsilonFirstBandit :=
  if b.step < b.exploration_steps ∨ u < b.epsilon then
    (randArm % b.arms.length, b)
  else
    let max_q := listMax 0 b.q_values
    let candidates :=
      (List.range b.q_values.length).filter (fun i => b.q_values.getD i 0 = max_q)
    ((candidates.getD (pick % candidates.length) 0),
      { b with step := b.step + 1 })

/-- `EpsilonFirstBandit.update` (lines 58-64); same running-mean update as
the epsilon-greedy strategy. -/
def EpsilonFirstBandit.update (b : EpsilonFirstBandit) (arm_index : ℕ)
    (reward : ℚ) : Except String EpsilonFirstBandit :=
  if ¬(0 ≤ reward ∧ reward ≤ 1) then
    .error "Reward must be in the range [0, 1]."
  else
    let counts := b.counts.set arm_index (b.counts.getD arm_index 0 + 1)
    let n : ℚ := (counts.getD arm_index 0 : ℚ)
    let old_q := b.q_values.getD arm_index 0
    .ok { b with
          counts := counts
          q_values := b.q_values.set arm_index (((n - 1) * old_q + reward) / n) }

/-- State of `EpsilonDecreasingBandit` (lines 75-84).  The `update` method
touches only `q_values` and `counts`; the epsilon-decay fields are carried
along untouched. -/
structure EpsilonDecreasingBandit where
  arms : List ℚ
  initial_epsilon : ℚ
  epsilon : ℚ
  limit_epsilon : ℚ
  half_decay_steps : ℕ
  q_values : List ℚ
  counts : List ℕ
  step : ℕ
deriving DecidableEq, Repr

/-- `EpsilonDecreasingBandit.update` (lines 97-103). -/
def EpsilonDecreasingBandit.update (b : EpsilonDecreasingBandit)
    (arm_index : ℕ) (reward : ℚ) : Except String EpsilonDecreasingBandit :=
  if ¬(0 ≤ reward ∧ reward ≤ 1) then
    .error "Reward must be in the range [0, 1]."
  else
    let counts := b.counts.set arm_index (b.counts.getD arm_index 0 + 1)
    let n : ℚ := (counts.getD arm_index 0 : ℚ)
    let old_q := b.q_values.getD arm_index 0
    .ok { b with
          counts := counts
          q_values := b.q_values.set arm_index (((n - 1) * old_q + reward) / n) }

/-- State of `UCB1Bandit` (lines 117-122). -/
structure UCB1Bandit where
  arms : List ℚ
  total_count : ℕ
  q_values : List ℚ
  counts : List ℕ
deriving DecidableEq, Repr

/-- Fresh `UCB1Bandit` as built by `__init__` (lines 118-122). -/
def UCB1Bandit.mk0 (arms : List ℚ) : UCB1Bandit :=
  { arms := arms
    total_count := 0
    q_values := List.replicate arms.length 0
    counts := List.replicate arms.length 0 }

/-- The UCB value of arm `i` (line 130):
`q_values[i] + sqrt(2 * log(total_count) / counts[i])`. -/
noncomputable def UCB1Bandit.ucbValue (b : UCB1Bandit) (i : ℕ) : ℝ :=
  (b.q_values.getD i 0 : ℝ) +
    Real.sqrt (2 * Real.log (b.total_count : ℝ) / (b.counts.getD i 0 : ℝ))

/-- The list `ucb_values` built on lines 129-132. -/
noncomputable def UCB1Bandit.ucbValues (b : UCB1Bandit) : List ℝ :=
  (List.range b.arms.length).map b.ucbValue

/-- Python `list.index(max(list))`: the first index holding the maximum. -/
noncomputable def idxOfMax (l : List ℝ) : ℕ :=
  l.indexOf (listMax 0 l)

/-- `UCB1Bandit.select_arm` (lines 124-133): any never-pulled arm first, in
index order; otherwise the first index attaining the maximal UCB value. -/
noncomputable def UCB1Bandit.select_arm (b : UCB1Bandit) : ℕ :=
  match (List.range b.arms.length).find? (fun i => b.counts.getD i 0 == 0) with
  | some i => i
  | none => idxOfMax b.ucbValues

/-- `UCB1Bandit.update` (lines 135-142): validation, per-arm count, total
count, running mean. -/
def UCB1Bandit.update (b : UCB1Bandit) (arm_index : ℕ) (reward : ℚ) :
    Except String UCB1Bandit :=
  if ¬(0 ≤ reward ∧ reward ≤ 1) then
    .error "Reward must be in the range [0, 1]."
  else
    let counts := b.counts.set arm_index (b.counts.getD arm_index 0 + 1)
    let n : ℚ := (counts.getD arm_index 0 : ℚ)
    let old_q := b.q_values.getD arm_index 0
    .ok { b with
          counts := counts
          total_count := b.total_count + 1
          q_values := b.q_values.set arm_index (((n - 1) * old_q + reward) / n) }

/-- State of `GreedyBanditWithHistory` (lines 152-158). -/
structure GreedyBanditWithHistory where
  arms : List ℚ
  history_length : ℕ
  q_values : List ℚ
  counts : List ℕ
  history : List (List ℚ)
deriving DecidableEq, Repr

/-- `GreedyBanditWithHistory.update` (lines 169-177): validate, drop the
oldest reward when the window is full (`list.pop(0)`, which raises on an
empty list), append the new reward, recompute count and mean from the
window. -/
def GreedyBanditWithHistory.update (b : GreedyBanditWithHistory)
    (arm_index : ℕ) (reward : ℚ) : Except String GreedyBanditWithHistory :=
  if ¬(0 ≤ reward ∧ reward ≤ 1) then
    .error "Reward must be in the range [0, 1]."
  else
    match (if b.history_length ≤ (b.history.getD arm_index []).length then
             match b.history.getD arm_index [] with
             | [] => Except.error "pop from empty list"
             | _ :: t => Except.ok t
           else Except.ok (b.history.getD arm_index []) :
           Except String (List ℚ)) with
    | .error e => .error e
    | .ok hist' =>
      .ok { b with
            history := b.history.set arm_index (hist' ++ [reward])
            counts := b.counts.set arm_index (hist' ++ [reward]).length
            q_values := b.q_values.set arm_index
              ((hist' ++ [reward]).sum / (((hist' ++ [reward]).length : ℕ) : ℚ)) }

/-- State of `WilsonSamplingBandit` (lines 187-192). -/
structure WilsonSamplingBandit where
  arms : List ℚ
  q_values : List ℚ
  counts : List ℕ
  z_score : ℚ
deriving DecidableEq, Repr

/-- `WilsonSamplingBandit.update` (lines 201-207). -/
def WilsonSamplingBandit.update (b : WilsonSamplingBandit) (arm_index : ℕ)
    (reward : ℚ) : Except String WilsonSamplingBandit :=
  if ¬(0 ≤ reward ∧ reward ≤ 1) then
    .error "Reward must be in the range [0, 1]."
  else
    let counts := b.counts.set arm_index (b.counts.getD arm_index 0 + 1)
    let n : ℚ := (counts.getD arm_index 0 : ℚ)
    let old_q := b.q_values.getD arm_index 0
    .ok { b with
          counts := counts
          q_values := b.q_values.set arm_index (((n - 1) * old_q + reward) / n) }

/-- `WilsonSamplingBandit._wilson_score` (lines 209-217), with the running
mean passed in as `q_val` exactly as at the call site (line 198). -/
noncomputable def WilsonSamplingBandit.wilson_score (b : WilsonSamplingBandit)
    (arm_index : ℕ) (q_val : ℚ) : ℝ :=
  let n : ℕ := b.counts.getD arm_index 0
  if n = 0 then 1
  else
    let proportion : ℝ := (q_val : ℝ)
    let z : ℝ := (b.z_score : ℝ)
    let factor : ℝ := z ^ 2 / (2 * (n : ℝ))
    let adj_factor : ℝ :=
      z / 2 * Real.sqrt ((proportion * (1 - proportion) + z ^ 2 / (4 * (n : ℝ))) / (n : ℝ))
    (proportion + factor - adj_factor) / (1 + z ^ 2 / (n : ℝ))

/-- State of `ThompsonSamplingBandit` (lines 227-231). -/
structure ThompsonSamplingBandit where
  arms : List ℚ
  alpha : List ℚ
  beta : List ℚ
deriving DecidableEq, Repr

/-- Fresh `ThompsonSamplingBandit` as built by `__init__` (lines 228-231):
uniform `Beta(1, 1)` prior on every arm. -/
def ThompsonSamplingBandit.mk0 (arms : List ℚ) : ThompsonSamplingBandit :=
  { arms := arms
    alpha := List.replicate arms.length 1
    beta := List.replicate arms.length 1 }

/-- `ThompsonSamplingBandit.update` (lines 237-241): validate the (otherwise
unused) reward, then add the caller-supplied `success` and `failure`
pseudo-counts to the Beta parameters; `success` and `failure` themselves are
not checked in any way. -/
def ThompsonSamplingBandit.update (b : ThompsonSamplingBandit)
    (arm_index : ℕ) (reward success failure : ℚ) :
    Except String ThompsonSamplingBandit :=
  if ¬(0 ≤ reward ∧ reward ≤ 1) then
    .error "Reward must be in the range [0, 1]."
  else
    .ok { b with
          alpha := b.alpha.set arm_index (b.alpha.getD arm_index 0 + success)
          beta := b.beta.set arm_index (b.beta.getD arm_index 0 + failure) }

/-- The two controller health states of `deploy_bandit` (line 278). -/
inductive DeployMode where
  | alive
  | waiting
deriving DecidableEq, Repr

/-- The abstract bandit interface `deploy_bandit` programs against: a fixed
arm list (attribute `arms`), a `select_arm` that may consume and update
internal (possibly pseudo-random) state, and an `update` taking the reward
and the `success` / `failure` keyword arguments.  `update` may raise — every
strategy in the repository raises `ValueError` when the reward falls
outside `[0, 1]` — so it returns `Except String σ`, and `deployStep`
propagates such an exception out of the loop body. -/
structure BanditOps (σ : Type) where
  arms : List ℚ
  select_arm : σ → ℕ × σ
  update : σ → ℕ → ℚ → ℚ → ℚ → Except String σ

/-- Controller state of `deploy_bandit` (lines 278-282) together with the
bandit object it mutates. -/
structure DeployState (σ : Type) where
  bandit : σ
  mode : DeployMode
  last_alive_successes : ℚ
  last_arm_index : Option ℕ
  waiting_steps : ℕ
  waiting_time : ℚ
deriving DecidableEq, Repr

/-- Initial controller state (lines 278-282). -/
def DeployState.init {σ : Type} (b : σ) : DeployState σ :=
  { bandit := b
    mode := .alive
    last_alive_successes := 0
    last_arm_index := none
    waiting_steps := 0
    waiting_time := 0 }

/-- One iteration of the `for` loop of `deploy_bandit` (lines 288-334).
`φ args k` is the pair returned by the executing function `fun` when called
with argument `args` in round `k` (the round index stands for the external
world's state across impure calls).  `w` is the already-normalized
`waiting_args` value.  Two failure paths are modelled, matching the source:
Python's `ZeroDivisionError` from `fail_fraction` when
`successes + failures == 0` (lines 299 and 320), and any exception raised
by `bandit.update` (lines 315 and 332), which propagates and aborts the
round before the wait-time reset or state transition takes place.  In
WAITING mode `last_arm_index` is always `some _` (it is set on every
ALIVE→WAITING transition), so the `getD` default is never consulted. -/
def deployStep {σ : Type} (failure_threshold default_wait_time
    extra_wait_time reward_factor : ℚ) (w : ℚ) (φ : ℚ → ℕ → ℚ × ℚ)
    (B : BanditOps σ) (s : DeployState σ) (k : ℕ) :
    Except String (DeployState σ) :=
  match s.mode with
  | .alive =>
    let sel := B.select_arm s.bandit
    let current_arm_index := sel.1
    let b1 := sel.2
    let fun_args := B.arms.getD current_arm_index 0
    let res := φ fun_args k
    let successful_tasks := res.1
    let failed_tasks := res.2
    if successful_tasks + failed_tasks = 0 then
      .error "float division by zero"
    else
      let fail_fraction := failed_tasks / (successful_tasks + failed_tasks)
      let wt := s.waiting_time + default_wait_time
      if failure_threshold ≤ fail_fraction then
        .ok { bandit := b1
              mode := .waiting
              last_alive_successes := successful_tasks
              last_arm_index := some current_arm_index
              waiting_steps := 0
              waiting_time := wt }
      else
        let reward := successful_tasks / wt * reward_factor
        let max_total := wt * 10 ^ 6
        let success := successful_tasks / wt
        let failure := max_total - success
        match B.update b1 current_arm_index reward success failure with
        | .error e => .error e
        | .ok b2 =>
          .ok { bandit := b2
                mode := .alive
                last_alive_successes := s.last_alive_successes
                last_arm_index := s.last_arm_index
                waiting_steps := s.waiting_steps
                waiting_time := 0 }
  | .waiting =>
    let res := φ w k
    let successful_tasks := res.1
    let failed_tasks := res.2
    if successful_tasks + failed_tasks = 0 then
      .error "float division by zero"
    else
      let fail_fraction := failed_tasks / (successful_tasks + failed_tasks)
      let ws := s.waiting_steps + 1
      let wt := s.waiting_time + default_wait_time + extra_wait_time
      if fail_fraction < failure_threshold then
        let reward := s.last_alive_successes / wt * reward_factor
        let max_total := wt * 10 ^ 6
        let success := successful_tasks / wt
        let failure := max_total - success
        match B.update s.bandit (s.last_arm_index.getD 0) reward
            success failure with
        | .error e => .error e
        | .ok b2 =>
          .ok { bandit := b2
                mode := .alive
                last_alive_successes := s.last_alive_successes
                last_arm_index := s.last_arm_index
                waiting_steps := ws
                waiting_time := 0 }
      else
        .ok { s with waiting_steps := ws, waiting_time := wt }

/-- The `for _ in range(max_steps)` loop (lines 284-334), run with `fuel`
iterations remaining and `k` the current round index.  Returns the number of
loop-body iterations that started together with either the final state or
the exception that aborted the run. -/
def deployLoop {σ : Type} (failure_threshold default_wait_time
    extra_wait_time reward_factor : ℚ) (w : ℚ) (φ : ℚ → ℕ → ℚ × ℚ)
    (B : BanditOps σ) : ℕ → ℕ → DeployState σ →
    ℕ × Except String (DeployState σ)
  | 0, _, s => (0, .ok s)
  | fuel + 1, k, s =>
    match deployStep failure_threshold default_wait_time extra_wait_time
        reward_factor w φ B s k with
    | .error e => (1, .error e)
    | .ok s' =>
      let rest := deployLoop failure_threshold default_wait_time
        extra_wait_time reward_factor w φ B fuel (k + 1) s'
      (rest.1 + 1, rest.2)

/-- `deploy_bandit` (lines 262-337): reject a missing `waiting_args`
(line 274), then run the loop for exactly `max_steps` rounds from the
initial ALIVE state. -/
def deploy_bandit {σ : Type} (B : BanditOps σ) (b0 : σ)
    (φ : ℚ → ℕ → ℚ × ℚ) (failure_threshold default_wait_time
    extra_wait_time reward_factor : ℚ) (waiting_args : Option ℚ)
    (max_steps : ℕ) : ℕ × Except String (DeployState σ) :=
  match waiting_args with
  | none => (0, .error "waiting_args must be provided")
  | some w =>
    deployLoop failure_threshold default_wait_time extra_wait_time
      reward_factor w φ B max_steps 0 (DeployState.init b0)

deriving instance DecidableEq for Except

/-- One recorded call to `ThompsonSamplingBandit.update`, with the
caller-supplied keyword arguments. -/
structure UpdateCall where
  arm_index : ℕ
  reward : ℚ
  success : ℚ
  failure : ℚ
deriving DecidableEq, Repr

/-- A sequence of `update` calls applied left to right, stopping at the
first raised exception. -/
def ThompsonSamplingBandit.applyUpdates (b : ThompsonSamplingBandit) :
    List UpdateCall → Except String ThompsonSamplingBandit
  | [] => .ok b
  | c :: cs =>
    match b.update c.arm_index c.reward c.success c.failure with
    | .error e => .error e
    | .ok b' => b'.applyUpdates cs

/-- `n` rounds of `select_arm()` each followed by `update` on the returned
arm (`k` is the index of the current round in the reward sequence `rs`);
returns the list of selected arms and the final state, or the first raised
exception. -/
noncomputable def ucbRun (rs : ℕ → ℚ) : ℕ → ℕ → UCB1Bandit →
    Except String (List ℕ × UCB1Bandit)
  | _, 0, b => .ok ([], b)
  | k, m + 1, b =>
    match b.update b.select_arm (rs k) with
    | .error e => .error e
    | .ok b' =>
      match ucbRun rs (k + 1) m b' with
      | .error e => .error e
      | .ok (l, bf) => .ok (b.select_arm :: l, bf)

/-! ### Helper lemmas about list indexing -/

theorem getD_set_self {α : Type} (l : List α) (i : ℕ) (v d : α)
    (h : i < l.length) : (l.set i v).getD i d = v := by
  simp [List.getD_eq_getElem?_getD, List.getElem?_set_self, h]

/-! ### C4: invalid rewards are rejected by every mean-tracking strategy -/

/-- C4: for each of the six mean-tracking strategies (epsilon-greedy,
epsilon-first, epsilon-decreasing, UCB1, Wilson, history-bounded greedy),
`update` with a reward outside `[0, 1]` raises
`ValueError("Reward must be in the range [0, 1].")`; the error is returned
before any field of the bandit state is touched, so the belief state is
unchanged. -/
theorem invalid_reward_rejected :
    (∀ (b : EpsilonGreedyBandit) (i : ℕ) (r : ℚ), r < 0 ∨ 1 < r →
      b.update i r = .error "Reward must be in the range [0, 1].") ∧
    (∀ (b : EpsilonFirstBandit) (i : ℕ) (r : ℚ), r < 0 ∨ 1 < r →
      b.update i r = .error "Reward must be in the range [0, 1].") ∧
    (∀ (b : EpsilonDecreasingBandit) (i : ℕ) (r : ℚ), r < 0 ∨ 1 < r →
      b.update i r = .error "Reward must be in the range [0, 1].") ∧
    (∀ (b : UCB1Bandit) (i : ℕ) (r : ℚ), r < 0 ∨ 1 < r →
      b.update i r = .error "Reward must be in the range [0, 1].") ∧
    (∀ (b : WilsonSamplingBandit) (i : ℕ) (r : ℚ), r < 0 ∨ 1 < r →
      b.update i r = .error "Reward must be in the range [0, 1].") ∧
    (∀ (b : GreedyBanditWithHistory) (i : ℕ) (r : ℚ), r < 0 ∨ 1 < r →
      b.update i r = .error "Reward must be in the range [0, 1].") := by
  refine ⟨?_, ?_, ?_, ?_, ?_, ?_⟩ <;> intro b i r h <;>
    have hinv : ¬(0 ≤ r ∧ r ≤ 1) := by
      rintro ⟨h0, h1⟩
      rcases h with h | h <;> linarith
  · rw [EpsilonGreedyBandit.update, if_pos hinv]
  · rw [EpsilonFirstBandit.update, if_pos hinv]
  · rw [EpsilonDecreasingBandit.update, if_pos hinv]
  · rw [UCB1Bandit.update, if_pos hinv]
  · rw [WilsonSamplingBandit.update, if_pos hinv]
  · rw [GreedyBanditWithHistory.update, if_pos hinv]

/-- Witness for C4 at the spec's example rewards `-0.1` and `1.1`. -/
theorem invalid_reward_rejected_witness :
    (⟨[10], 1/10, [0], [0]⟩ : EpsilonGreedyBandit).update 0 (-1/10) =
      .error "Reward must be in the range [0, 1]." ∧
    (⟨[10], 2, 1/10, [0], [0], 0⟩ : EpsilonFirstBandit).update 0 (11/10) =
      .error "Reward must be in the range [0, 1]." ∧
    (⟨[10], 1, 1, 1/10, 100, [0], [0], 0⟩ : EpsilonDecreasingBandit).update 0
      (-1/10) = .error "Reward must be in the range [0, 1]." ∧
    (⟨[10], 0, [0], [0]⟩ : UCB1Bandit).update 0 (11/10) =
      .error "Reward must be in the range [0, 1]." ∧
    (⟨[10], [0], [0], 49/25⟩ : WilsonSamplingBandit).update 0 (-1/10) =
      .error "Reward must be in the range [0, 1]." ∧
    (⟨[10], 2, [0], [0], [[]]⟩ : GreedyBanditWithHistory).update 0 (11/10) =
      .error "Reward must be in the range [0, 1]." :=
  ⟨invalid_reward_rejected.1 _ 0 _ (Or.inl (by norm_num)),
   invalid_reward_rejected.2.1 _ 0 _ (Or.inr (by norm_num)),
   invalid_reward_rejected.2.2.1 _ 0 _ (Or.inl (by norm_num)),
   invalid_reward_rejected.2.2.2.1 _ 0 _ (Or.inr (by norm_num)),
   invalid_reward_rejected.2.2.2.2.1 _ 0 _ (Or.inl (by norm_num)),
   invalid_reward_rejected.2.2.2.2.2 _ 0 _ (Or.inr (by norm_num))⟩

/-! ### C3: effect of a valid update on the stored pull count -/

/-- C3 counterexample: for the history-bounded greedy strategy with
`history_length = 1`, a second valid update to arm 0 leaves the stored pull
count at 1 instead of increasing it by exactly 1 (the window is full, so the
oldest reward is dropped and the window length — hence the count — stays
put). -/
theorem pull_count_counterexample :
    GreedyBanditWithHistory.update ⟨[10], 1, [0], [0], [[]]⟩ 0 1 =
      .ok ⟨[10], 1, [1], [1], [[1]]⟩ ∧
    GreedyBanditWithHistory.update ⟨[10], 1, [1], [1], [[1]]⟩ 0 1 =
      .ok ⟨[10], 1, [1], [1], [[1]]⟩ ∧
    (⟨[10], 1, [1], [1], [[1]]⟩ : GreedyBanditWithHistory).counts.getD 0 0 ≠
      (⟨[10], 1, [1], [1], [[1]]⟩ : GreedyBanditWithHistory).counts.getD 0 0 + 1 := by
  refine ⟨?_, ?_, by decide⟩ <;> simp [GreedyBanditWithHistory.update, List.getD]

/-- C3 amended: `update(i, r)` with a valid reward increases the stored pull
count of arm `i` by exactly 1 for the epsilon-greedy, epsilon-first,
epsilon-decreasing, UCB1 and Wilson strategies; the Thompson strategy
instead adds the supplied `success` to `alpha[i]` and the supplied `failure`
to `beta[i]`; and the history-bounded greedy strategy (with
`history_length ≥ 1` and the window invariant `|history[i]| ≤
history_length`) sets the count to `min(|history[i]| + 1, history_length)` —
it increases by exactly 1 only while the window is not yet full and stays at
`history_length` thereafter. -/
theorem pull_count_after_update :
    (∀ (b : EpsilonGreedyBandit) (i : ℕ) (r : ℚ), 0 ≤ r → r ≤ 1 →
      i < b.counts.length → ∃ b', b.update i r = .ok b' ∧
        b'.counts.getD i 0 = b.counts.getD i 0 + 1) ∧
    (∀ (b : EpsilonFirstBandit) (i : ℕ) (r : ℚ), 0 ≤ r → r ≤ 1 →
      i < b.counts.length → ∃ b', b.update i r = .ok b' ∧
        b'.counts.getD i 0 = b.counts.getD i 0 + 1) ∧
    (∀ (b : EpsilonDecreasingBandit) (i : ℕ) (r : ℚ), 0 ≤ r → r ≤ 1 →
      i < b.counts.length → ∃ b', b.update i r = .ok b' ∧
        b'.counts.getD i 0 = b.counts.getD i 0 + 1) ∧
    (∀ (b : UCB1Bandit) (i : ℕ) (r : ℚ), 0 ≤ r → r ≤ 1 →
      i < b.counts.length → ∃ b', b.update i r = .ok b' ∧
        b'.counts.getD i 0 = b.counts.getD i 0 + 1) ∧
    (∀ (b : WilsonSamplingBandit) (i : ℕ) (r : ℚ), 0 ≤ r → r ≤ 1 →
      i < b.counts.length → ∃ b', b.update i r = .ok b' ∧
        b'.counts.getD i 0 = b.counts.getD i 0 + 1) ∧
    (∀ (b : ThompsonSamplingBandit) (i : ℕ) (r s f : ℚ), 0 ≤ r → r ≤ 1 →
      i < b.alpha.length → i < b.beta.length →
      ∃ b', b.update i r s f = .ok b' ∧
        b'.alpha.getD i 0 = b.alpha.getD i 0 + s ∧
        b'.beta.getD i 0 = b.beta.getD i 0 + f) ∧
    (∀ (b : GreedyBanditWithHistory) (i : ℕ) (r : ℚ), 0 ≤ r → r ≤ 1 →
      1 ≤ b.history_length → (b.history.getD i []).length ≤ b.history_length →
      i < b.counts.length → ∃ b', b.update i r = .ok b' ∧
        b'.counts.getD i 0 =
          min ((b.history.getD i []).length + 1) b.history_length) := by
  refine ⟨?_, ?_, ?_, ?_, ?_, ?_, ?_⟩
  · intro b i r h0 h1 hi
    rw [EpsilonGreedyBandit.update, if_neg (not_not_intro ⟨h0, h1⟩)]
    exact ⟨_, rfl, getD_set_self _ _ _ _ hi⟩
  · intro b i r h0 h1 hi
    rw [EpsilonFirstBandit.update, if_neg (not_not_intro ⟨h0, h1⟩)]
    exact ⟨_, rfl, getD_set_self _ _ _ _ hi⟩
  · intro b i r h0 h1 hi
    rw [EpsilonDecreasingBandit.update, if_neg (not_not_intro ⟨h0, h1⟩)]
    exact ⟨_, rfl, getD_set_self _ _ _ _ hi⟩
  · intro b i r h0 h1 hi
    rw [UCB1Bandit.update, if_neg (not_not_intro ⟨h0, h1⟩)]
    exact ⟨_, rfl, getD_set_self _ _ _ _ hi⟩
  · intro b i r h0 h1 hi
    rw [WilsonSamplingBandit.update, if_neg (not_not_intro ⟨h0, h1⟩)]
    exact ⟨_, rfl, getD_set_self _ _ _ _ hi⟩
  · intro b i r s f h0 h1 ha hb
    rw [ThompsonSamplingBandit.update, if_neg (not_not_intro ⟨h0, h1⟩)]
    exact ⟨_, rfl, getD_set_self _ _ _ _ ha, getD_set_self _ _ _ _ hb⟩
  · intro b i r h0 h1 hL hlen hi
    rw [GreedyBanditWithHistory.update, if_neg (not_not_intro ⟨h0, h1⟩)]
    by_cases hfull : b.history_length ≤ (b.history.getD i []).length
    · have heq : (b.history.getD i []).length = b.history_length :=
        le_antisymm hlen hfull
      rw [if_pos hfull]
      rcases hh : b.history.getD i [] with _ | ⟨x, t⟩
      · exfalso
        rw [hh] at heq
        simp only [List.length_nil] at heq
        omega
      · refine ⟨_, rfl, ?_⟩
        rw [getD_set_self _ _ _ _ hi, List.length_append]
        rw [hh] at heq
        simp only [List.length_cons, List.length_nil] at heq ⊢
        rw [min_def]
        split_ifs <;> omega
    · rw [if_neg hfull]
      refine ⟨_, rfl, ?_⟩
      rw [getD_set_self _ _ _ _ hi, List.length_append]
      simp only [List.length_cons, List.length_nil]
      rw [min_def]
      split_ifs <;> omega

/-- Witness for C3 (amended): each strategy exercised once at a concrete
state with reward 1/2 (and `success = 2`, `failure = 3` for Thompson). -/
theorem pull_count_after_update_witness :
    (∃ b', (⟨[10], 1/10, [0], [3]⟩ : EpsilonGreedyBandit).update 0 (1/2) =
      .ok b' ∧ b'.counts.getD 0 0 = 3 + 1) ∧
    (∃ b', (⟨[10], 2, 1/10, [0], [0], 0⟩ : EpsilonFirstBandit).update 0 (1/2) =
      .ok b' ∧ b'.counts.getD 0 0 = 0 + 1) ∧
    (∃ b', (⟨[10], 1, 1, 1/10, 100, [0], [0], 0⟩ :
      EpsilonDecreasingBandit).update 0 (1/2) = .ok b' ∧
      b'.counts.getD 0 0 = 0 + 1) ∧
    (∃ b', (⟨[10], 5, [0], [5]⟩ : UCB1Bandit).update 0 (1/2) = .ok b' ∧
      b'.counts.getD 0 0 = 5 + 1) ∧
    (∃ b', (⟨[10], [0], [0], 49/25⟩ : WilsonSamplingBandit).update 0 (1/2) =
      .ok b' ∧ b'.counts.getD 0 0 = 0 + 1) ∧
    (∃ b', (⟨[10], [1], [1]⟩ : ThompsonSamplingBandit).update 0 (1/2) 2 3 =
      .ok b' ∧ b'.alpha.getD 0 0 = 1 + 2 ∧ b'.beta.getD 0 0 = 1 + 3) ∧
    (∃ b', (⟨[10], 2, [1], [2], [[1, 1]]⟩ :
      GreedyBanditWithHistory).update 0 (1/2) = .ok b' ∧
      b'.counts.getD 0 0 = min (2 + 1) 2) :=
  ⟨pull_count_after_update.1 _ 0 _ (by norm_num) (by norm_num) (by decide),
   pull_count_after_update.2.1 _ 0 _ (by norm_num) (by norm_num) (by decide),
   pull_count_after_update.2.2.1 _ 0 _ (by norm_num) (by norm_num) (by decide),
   pull_count_after_update.2.2.2.1 _ 0 _ (by norm_num) (by norm_num) (by decide),
   pull_count_after_update.2.2.2.2.1 _ 0 _ (by norm_num) (by norm_num) (by decide),
   pull_count_after_update.2.2.2.2.2.1 _ 0 _ 2 3 (by norm_num) (by norm_num)
     (by decide) (by decide),
   pull_count_after_update.2.2.2.2.2.2 _ 0 _ (by norm_num) (by norm_num)
     (by decide) (by decide) (by decide)⟩

/-! ### More helper lemmas -/

theorem getD_set_ne {α : Type} (l : List α) (i j : ℕ) (v d : α) (h : i ≠ j) :
    (l.set i v).getD j d = l.getD j d := by
  simp [List.getD_eq_getElem?_getD, List.getElem?_set_ne h]

theorem getD_replicate {α : Type} (n j : ℕ) (a d : α) (h : j < n) :
    (List.replicate n a).getD j d = a := by
  rw [List.getD_eq_getElem _ _ (by simpa using h)]
  simp

/-! ### C6: the Wilson score formula -/

/-- C6: `_wilson_score`, at the call-site argument `q_values[i]`, equals the
spec's closed formula
`(p + z^2/(2n) - z/2 * sqrt((p*(1-p) + z^2/(4n))/n)) / (1 + z^2/n)`
whenever the pull count `n` of arm `i` is positive, and equals `1.0` when
`n = 0`. -/
theorem wilson_score_formula (b : WilsonSamplingBandit) (i : ℕ) :
    (b.counts.getD i 0 = 0 → b.wilson_score i (b.q_values.getD i 0) = 1) ∧
    (0 < b.counts.getD i 0 →
      b.wilson_score i (b.q_values.getD i 0) =
        ((b.q_values.getD i 0 : ℝ) +
            (b.z_score : ℝ) ^ 2 / (2 * (b.counts.getD i 0 : ℝ)) -
            (b.z_score : ℝ) / 2 *
              Real.sqrt (((b.q_values.getD i 0 : ℝ) *
                  (1 - (b.q_values.getD i 0 : ℝ)) +
                  (b.z_score : ℝ) ^ 2 / (4 * (b.counts.getD i 0 : ℝ))) /
                (b.counts.getD i 0 : ℝ))) /
          (1 + (b.z_score : ℝ) ^ 2 / (b.counts.getD i 0 : ℝ))) := by
  constructor
  · intro h
    rw [WilsonSamplingBandit.wilson_score, if_pos h]
  · intro h
    rw [WilsonSamplingBandit.wilson_score, if_neg (Nat.pos_iff_ne_zero.mp h)]

/-- Witness for C6: a zero-pull arm scores `1.0`, and an arm with 4 pulls,
mean 1/2 and z-score 2 is scored by the closed formula. -/
theorem wilson_score_formula_witness :
    WilsonSamplingBandit.wilson_score ⟨[10], [0], [0], 49/25⟩ 0
      ((⟨[10], [0], [0], 49/25⟩ : WilsonSamplingBandit).q_values.getD 0 0) = 1 ∧
    WilsonSamplingBandit.wilson_score ⟨[10], [1/2], [4], 2⟩ 0
      ((⟨[10], [1/2], [4], 2⟩ : WilsonSamplingBandit).q_values.getD 0 0) =
      ((((1 : ℚ)/2 : ℚ) : ℝ) + (((2 : ℚ) : ℝ)) ^ 2 / (2 * (((4 : ℕ) : ℝ))) -
          (((2 : ℚ) : ℝ)) / 2 *
            Real.sqrt (((((1 : ℚ)/2 : ℚ) : ℝ) * (1 - (((1 : ℚ)/2 : ℚ) : ℝ)) +
                (((2 : ℚ) : ℝ)) ^ 2 / (4 * (((4 : ℕ) : ℝ)))) / (((4 : ℕ) : ℝ)))) /
        (1 + (((2 : ℚ) : ℝ)) ^ 2 / (((4 : ℕ) : ℝ))) :=
  ⟨(wilson_score_formula ⟨[10], [0], [0], 49/25⟩ 0).1 (by decide),
   (wilson_score_formula ⟨[10], [1/2], [4], 2⟩ 0).2 (by decide)⟩

/-! ### C10: Thompson update validates the reward, not the pseudo-counts -/

/-- C10: `ThompsonSamplingBandit.update` validates the (otherwise unused)
`reward` argument — a reward outside `[0, 1]` raises the same `ValueError`
as the mean-tracking strategies, leaving `alpha` and `beta` untouched —
while for every valid reward the call succeeds for arbitrary `success` and
`failure` values (no bound or sign check), adding them to `alpha[i]` and
`beta[i]`. -/
theorem thompson_update_validates_reward :
    (∀ (b : ThompsonSamplingBandit) (i : ℕ) (r s f : ℚ), r < 0 ∨ 1 < r →
      b.update i r s f = .error "Reward must be in the range [0, 1].") ∧
    (∀ (b : ThompsonSamplingBandit) (i : ℕ) (r s f : ℚ), 0 ≤ r → r ≤ 1 →
      b.update i r s f = .ok { b with
        alpha := b.alpha.set i (b.alpha.getD i 0 + s)
        beta := b.beta.set i (b.beta.getD i 0 + f) }) := by
  constructor
  · intro b i r s f h
    have hinv : ¬(0 ≤ r ∧ r ≤ 1) := by
      rintro ⟨h0, h1⟩
      rcases h with h | h <;> linarith
    rw [ThompsonSamplingBandit.update, if_pos hinv]
  · intro b i r s f h0 h1
    rw [ThompsonSamplingBandit.update, if_neg (not_not_intro ⟨h0, h1⟩)]

/-- Witness for C10: reward `-0.1` is rejected, and a valid reward with a
negative `success` and a huge `failure` is accepted unchecked. -/
theorem thompson_update_validates_reward_witness :
    ThompsonSamplingBandit.update ⟨[10], [1], [1]⟩ 0 (-1/10) 1 0 =
      .error "Reward must be in the range [0, 1]." ∧
    ThompsonSamplingBandit.update ⟨[10], [1], [1]⟩ 0 (1/2) (-5) (10 ^ 9) =
      .ok { (⟨[10], [1], [1]⟩ : ThompsonSamplingBandit) with
        alpha := List.set [1] 0 (List.getD [1] 0 0 + (-5))
        beta := List.set [1] 0 (List.getD [1] 0 0 + 10 ^ 9) } :=
  ⟨thompson_update_validates_reward.1 _ 0 _ 1 0 (Or.inl (by norm_num)),
   thompson_update_validates_reward.2 _ 0 _ (-5) (10 ^ 9) (by norm_num)
     (by norm_num)⟩

/-! ### C7: Thompson Beta parameters -/

/-- C7 counterexample: `update` places no sign check on the caller-supplied
`success`, so a single call with `success = -1` drags `alpha[0]` from its
prior value 1 down to 0 — the parameters do not "only increase". -/
theorem thompson_params_counterexample :
    ThompsonSamplingBandit.update (ThompsonSamplingBandit.mk0 [10]) 0 (1/2)
      (-1) 0 = .ok ⟨[10], [0], [1]⟩ ∧
    ¬ (1 : ℚ) ≤ (⟨[10], [0], [1]⟩ : ThompsonSamplingBandit).alpha.getD 0 0 := by
  constructor
  · rw [ThompsonSamplingBandit.update, if_neg (not_not_intro (by norm_num))]
    norm_num [ThompsonSamplingBandit.mk0, List.getD]
  · decide


/-- For a non-negative increment, every `getD` entry of
`l.set i (l.getD i 0 + s)` dominates the corresponding entry of `l`. -/
theorem getD_set_add_le (l : List ℚ) (i j : ℕ) (s : ℚ) (hs : 0 ≤ s) :
    l.getD j 0 ≤ (l.set i (l.getD i 0 + s)).getD j 0 := by
  by_cases hij : i = j
  · subst hij
    by_cases hi : i < l.length
    · rw [getD_set_self _ _ _ _ hi]
      linarith
    · rw [List.set_eq_of_length_le (le_of_not_lt hi)]
  · rw [getD_set_ne _ _ _ _ _ hij]

/-- The "all entries at least 1" invariant is preserved by a single
successful Thompson update with non-negative pseudo-counts. -/
theorem thompson_step_inv (b b' : ThompsonSamplingBandit) (i : ℕ)
    (r s f : ℚ) (hs : 0 ≤ s) (hf : 0 ≤ f)
    (hok : b.update i r s f = .ok b')
    (ha : ∀ j < b.alpha.length, 1 ≤ b.alpha.getD j 0)
    (hb : ∀ j < b.beta.length, 1 ≤ b.beta.getD j 0) :
    (∀ j < b'.alpha.length, 1 ≤ b'.alpha.getD j 0) ∧
    (∀ j < b'.beta.length, 1 ≤ b'.beta.getD j 0) := by
  rw [ThompsonSamplingBandit.update] at hok
  by_cases hr : ¬(0 ≤ r ∧ r ≤ 1)
  · rw [if_pos hr] at hok
    exact absurd hok (by simp)
  · rw [if_neg hr] at hok
    cases hok
    constructor
    · intro j hj
      simp only [List.length_set] at hj
      calc 1 ≤ b.alpha.getD j 0 := ha j hj
        _ ≤ _ := getD_set_add_le _ _ _ _ hs
    · intro j hj
      simp only [List.length_set] at hj
      calc 1 ≤ b.beta.getD j 0 := hb j hj
        _ ≤ _ := getD_set_add_le _ _ _ _ hf

/-- The invariant holds after any successful sequence of updates from a
state satisfying it. -/
theorem thompson_seq_inv (cs : List UpdateCall) (b b' : ThompsonSamplingBandit)
    (hcs : ∀ c ∈ cs, 0 ≤ c.success ∧ 0 ≤ c.failure)
    (hrun : b.applyUpdates cs = .ok b')
    (ha : ∀ j < b.alpha.length, 1 ≤ b.alpha.getD j 0)
    (hb : ∀ j < b.beta.length, 1 ≤ b.beta.getD j 0) :
    (∀ j < b'.alpha.length, 1 ≤ b'.alpha.getD j 0) ∧
    (∀ j < b'.beta.length, 1 ≤ b'.beta.getD j 0) := by
  induction cs generalizing b with
  | nil =>
    rw [ThompsonSamplingBandit.applyUpdates] at hrun
    cases hrun
    exact ⟨ha, hb⟩
  | cons c cs ih =>
    rw [ThompsonSamplingBandit.applyUpdates] at hrun
    cases hu : b.update c.arm_index c.reward c.success c.failure with
    | error e => rw [hu] at hrun; exact absurd hrun (by simp)
    | ok b1 =>
      rw [hu] at hrun
      have hc := hcs c (by simp)
      have h1 := thompson_step_inv b b1 c.arm_index c.reward c.success
        c.failure hc.1 hc.2 hu ha hb
      exact ih b1 (fun d hd => hcs d (List.mem_cons_of_mem _ hd))
        (by simpa using hrun) h1.1 h1.2

/-- C7 amended: the Beta parameters start at `(1, 1)` on every arm, and a
successful `update` with non-negative `success` and `failure` never
decreases any `alpha` or `beta` entry; consequently, after any sequence of
updates whose supplied pseudo-counts are non-negative, every `alpha[i]` and
`beta[i]` is still at least 1.  (The unamended claim — over arbitrary update
arguments — is refuted by `thompson_params_counterexample`.) -/
theorem thompson_params_invariant :
    (∀ arms : List ℚ,
      (ThompsonSamplingBandit.mk0 arms).alpha = List.replicate arms.length 1 ∧
      (ThompsonSamplingBandit.mk0 arms).beta = List.replicate arms.length 1) ∧
    (∀ (b b' : ThompsonSamplingBandit) (i : ℕ) (r s f : ℚ), 0 ≤ s → 0 ≤ f →
      b.update i r s f = .ok b' →
      (∀ j, b.alpha.getD j 0 ≤ b'.alpha.getD j 0) ∧
      (∀ j, b.beta.getD j 0 ≤ b'.beta.getD j 0)) ∧
    (∀ (arms : List ℚ) (cs : List UpdateCall) (b' : ThompsonSamplingBandit),
      (∀ c ∈ cs, 0 ≤ c.success ∧ 0 ≤ c.failure) →
      (ThompsonSamplingBandit.mk0 arms).applyUpdates cs = .ok b' →
      (∀ j < b'.alpha.length, 1 ≤ b'.alpha.getD j 0) ∧
      (∀ j < b'.beta.length, 1 ≤ b'.beta.getD j 0)) := by
  refine ⟨fun arms => ⟨rfl, rfl⟩, ?_, ?_⟩
  · intro b b' i r s f hs hf hok
    rw [ThompsonSamplingBandit.update] at hok
    by_cases hr : ¬(0 ≤ r ∧ r ≤ 1)
    · rw [if_pos hr] at hok
      exact absurd hok (by simp)
    · rw [if_neg hr] at hok
      cases hok
      exact ⟨fun j => getD_set_add_le _ _ _ _ hs,
             fun j => getD_set_add_le _ _ _ _ hf⟩
  · intro arms cs b' hcs hrun
    refine thompson_seq_inv cs _ b' hcs hrun ?_ ?_ <;>
      intro j hj <;>
      simp only [ThompsonSamplingBandit.mk0, List.length_replicate] at hj ⊢ <;>
      rw [getD_replicate _ _ _ _ hj]

/-- Witness for C7 (amended): two arms, one update with `success = 2`,
`failure = 3` on arm 0. -/
theorem thompson_params_invariant_witness :
    ((ThompsonSamplingBandit.mk0 [10, 20]).alpha = List.replicate 2 1 ∧
      (ThompsonSamplingBandit.mk0 [10, 20]).beta = List.replicate 2 1) ∧
    ((∀ j, (ThompsonSamplingBandit.mk0 [10, 20]).alpha.getD j 0 ≤
        (⟨[10, 20], [3, 1], [4, 1]⟩ : ThompsonSamplingBandit).alpha.getD j 0) ∧
      (∀ j, (ThompsonSamplingBandit.mk0 [10, 20]).beta.getD j 0 ≤
        (⟨[10, 20], [3, 1], [4, 1]⟩ : ThompsonSamplingBandit).beta.getD j 0)) ∧
    ((∀ j < (⟨[10, 20], [3, 1], [4, 1]⟩ : ThompsonSamplingBandit).alpha.length,
        1 ≤ (⟨[10, 20], [3, 1], [4, 1]⟩ : ThompsonSamplingBandit).alpha.getD j 0) ∧
      (∀ j < (⟨[10, 20], [3, 1], [4, 1]⟩ : ThompsonSamplingBandit).beta.length,
        1 ≤ (⟨[10, 20], [3, 1], [4, 1]⟩ : ThompsonSamplingBandit).beta.getD j 0)) := by
  have hup : (ThompsonSamplingBandit.mk0 [10, 20]).update 0 (1/2) 2 3 =
      .ok ⟨[10, 20], [3, 1], [4, 1]⟩ := by
    rw [ThompsonSamplingBandit.update, if_neg (not_not_intro (by norm_num))]
    norm_num [ThompsonSamplingBandit.mk0, List.getD, List.replicate]
  refine ⟨thompson_params_invariant.1 [10, 20], ?_, ?_⟩
  · exact thompson_params_invariant.2.1 _ _ 0 (1/2) 2 3 (by norm_num)
      (by norm_num) hup
  · refine thompson_params_invariant.2.2 [10, 20] [⟨0, 1/2, 2, 3⟩] _ ?_ ?_
    · intro c hc
      simp only [List.mem_singleton] at hc
      subst hc
      exact ⟨by norm_num, by norm_num⟩
    · simp only [ThompsonSamplingBandit.applyUpdates, hup]

/-! ### C2: the epsilon-first warm-up window never ends -/

/-- C2 (code bug, evaluated at the failing input): for
`EpsilonFirstBandit(arms=[10, 20], exploration_steps=1, epsilon=1/10)`, the
first `select_arm` call is warm-up and leaves the state unchanged — in
particular `step` stays 0, because `self.step += 1` (line 55) sits in the
arg-max branch, unreachable while `step < exploration_steps`.  Consequently
the second call (and every later call), here with `random.random() = 1 ≥ ε`,
still returns the uniform-random oracle arm with `step` still 0: the
uniform-random-only window does not end after `exploration_steps = 1` calls,
it never ends. -/
theorem epsilon_first_warmup_never_ends :
    EpsilonFirstBandit.select_arm (EpsilonFirstBandit.mk0 [10, 20] 1 (1/10))
      (1/2) 0 0 = (0, EpsilonFirstBandit.mk0 [10, 20] 1 (1/10)) ∧
    EpsilonFirstBandit.select_arm (EpsilonFirstBandit.mk0 [10, 20] 1 (1/10))
      1 1 0 = (1, EpsilonFirstBandit.mk0 [10, 20] 1 (1/10)) ∧
    ∀ (u : ℚ) (randArm pick : ℕ),
      EpsilonFirstBandit.select_arm (EpsilonFirstBandit.mk0 [10, 20] 1 (1/10))
        u randArm pick = (randArm % 2, EpsilonFirstBandit.mk0 [10, 20] 1 (1/10)) := by
  refine ⟨?_, ?_, fun u randArm pick => ?_⟩ <;>
    rw [EpsilonFirstBandit.select_arm,
      if_pos (Or.inl (by norm_num [EpsilonFirstBandit.mk0]))] <;>
    norm_num [EpsilonFirstBandit.mk0]

/-! ### C9: successes = failures = 0 aborts the run -/

/-- C9: in any round, ALIVE or WAITING, in which the executing function
returns `(0, 0)`, the `fail_fraction` computation divides by zero and raises
`ZeroDivisionError` (first conjunct), and an exception raised by the loop
body aborts the whole deployment run — the loop stops with that error no
matter how many iterations were left (second conjunct).  No
treat-as-healthy (or any other) policy exists in the code. -/
theorem zero_tasks_aborts_run :
    (∀ (σ : Type) (θ dwt ewt rf w : ℚ) (φ : ℚ → ℕ → ℚ × ℚ) (B : BanditOps σ)
      (s : DeployState σ) (k : ℕ), (∀ a, φ a k = (0, 0)) →
      deployStep θ dwt ewt rf w φ B s k = .error "float division by zero") ∧
    (∀ (σ : Type) (θ dwt ewt rf w : ℚ) (φ : ℚ → ℕ → ℚ × ℚ) (B : BanditOps σ)
      (s : DeployState σ) (fuel k : ℕ) (e : String),
      deployStep θ dwt ewt rf w φ B s k = .error e →
      deployLoop θ dwt ewt rf w φ B (fuel + 1) k s = (1, .error e)) := by
  constructor
  · intro σ θ dwt ewt rf w φ B s k h
    obtain ⟨b, mode, las, lai, ws, wt⟩ := s
    cases mode <;> simp [deployStep, h]
  · intro σ θ dwt ewt rf w φ B s fuel k e hstep
    simp [deployLoop, hstep]

/-- Witness for C9: a run whose executing function always returns `(0, 0)`
errors on its very first round and the loop reports exactly one started
iteration. -/
theorem zero_tasks_aborts_run_witness :
    deployStep (1/10) 5 10 1 3 (fun _ _ => ((0 : ℚ), (0 : ℚ)))
      (⟨[10], fun st => (0, st), fun st _ _ _ _ => .ok st⟩ : BanditOps Unit)
      (DeployState.init ()) 0 = .error "float division by zero" ∧
    deployLoop (1/10) 5 10 1 3 (fun _ _ => ((0 : ℚ), (0 : ℚ)))
      (⟨[10], fun st => (0, st), fun st _ _ _ _ => .ok st⟩ : BanditOps Unit)
      (4 + 1) 0 (DeployState.init ()) = (1, .error "float division by zero") := by
  have h1 := zero_tasks_aborts_run.1 Unit (1/10) 5 10 1 3
    (fun _ _ => ((0 : ℚ), (0 : ℚ)))
    (⟨[10], fun st => (0, st), fun st _ _ _ _ => .ok st⟩ : BanditOps Unit)
    (DeployState.init ()) 0 (fun a => rfl)
  exact ⟨h1, zero_tasks_aborts_run.2 Unit (1/10) 5 10 1 3 _ _ _ 4 0 _ h1⟩

/-! ### C8: loop iteration count -/

/-- C8 counterexample: `EpsilonGreedyBandit([10])` (its `update` plugged in
unchanged; the draw of `select_arm` resolved to arm 0), an executing
function that always returns `(10^8, 1)` — never `(0, 0)`, never raises —
and the default-style parameters with `reward_factor = 10^-6`.  Round 1 is
healthy (`fail_fraction = 1/(10^8+1) < 1/10`) and computes
`reward = 10^8 / 5 * 10^-6 = 20 ∉ [0, 1]`, so `bandit.update` raises
`ValueError` and the run aborts after 1 of the 3 requested iterations: the
loop does not run exactly `max_steps` times. -/
theorem deploy_max_steps_counterexample :
    deploy_bandit
      (⟨[10], fun b => (0, b), fun b i r _ _ => b.update i r⟩ :
        BanditOps EpsilonGreedyBandit)
      ⟨[10], 1/10, [0], [0]⟩ (fun _ _ => ((10 ^ 8 : ℚ), 1))
      (1/10) 5 10 (1/10 ^ 6) (some 10) 3 =
      (1, .error "Reward must be in the range [0, 1].") ∧
    (1 : ℕ) ≠ 3 := by
  have hstep : deployStep (1/10) 5 10 (1/10 ^ 6) 10
      (fun _ _ => ((10 ^ 8 : ℚ), 1))
      (⟨[10], fun b => (0, b), fun b i r _ _ => b.update i r⟩ :
        BanditOps EpsilonGreedyBandit)
      (DeployState.init ⟨[10], 1/10, [0], [0]⟩) 0 =
      .error "Reward must be in the range [0, 1]." := by
    norm_num [deployStep, DeployState.init, EpsilonGreedyBandit.update]
  constructor
  · show (deployLoop (1/10) 5 10 (1/10 ^ 6) 10 (fun _ _ => ((10 ^ 8 : ℚ), 1))
        (⟨[10], fun b => (0, b), fun b i r _ _ => b.update i r⟩ :
          BanditOps EpsilonGreedyBandit) (2 + 1) 0
        (DeployState.init ⟨[10], 1/10, [0], [0]⟩)) =
      (1, .error "Reward must be in the range [0, 1].")
    simp only [deployLoop, hstep]
  · decide

/-- If the executing function returns non-negative counts that are not both
zero and the bandit's `update` never raises, one deployment step cannot
raise. -/
theorem deployStep_ok {σ : Type} (θ dwt ewt rf w : ℚ) (φ : ℚ → ℕ → ℚ × ℚ)
    (B : BanditOps σ) (s : DeployState σ) (k : ℕ)
    (hφ : ∀ a k, 0 ≤ (φ a k).1 ∧ 0 ≤ (φ a k).2 ∧
      ¬((φ a k).1 = 0 ∧ (φ a k).2 = 0))
    (hB : ∀ (b : σ) (i : ℕ) (r sc fl : ℚ), ∃ b2, B.update b i r sc fl = .ok b2) :
    ∃ s', deployStep θ dwt ewt rf w φ B s k = .ok s' := by
  have hsum : ∀ a, ¬((φ a k).1 + (φ a k).2 = 0) := by
    intro a h0
    obtain ⟨h1, h2, h3⟩ := hφ a k
    exact h3 ⟨by linarith, by linarith⟩
  obtain ⟨b, mode, las, lai, ws, wt⟩ := s
  cases mode <;>
    simp only [deployStep, if_neg (hsum _)] <;>
    split
  · exact ⟨_, rfl⟩
  · obtain ⟨b2, hb2⟩ := hB _ _ _ _ _
    rw [hb2]
    exact ⟨_, rfl⟩
  · obtain ⟨b2, hb2⟩ := hB _ _ _ _ _
    rw [hb2]
    exact ⟨_, rfl⟩
  · exact ⟨_, rfl⟩

/-- Under the same hypotheses the loop consumes all its fuel and
succeeds. -/
theorem deployLoop_runs_all {σ : Type} (θ dwt ewt rf w : ℚ)
    (φ : ℚ → ℕ → ℚ × ℚ) (B : BanditOps σ)
    (hφ : ∀ a k, 0 ≤ (φ a k).1 ∧ 0 ≤ (φ a k).2 ∧
      ¬((φ a k).1 = 0 ∧ (φ a k).2 = 0))
    (hB : ∀ (b : σ) (i : ℕ) (r sc fl : ℚ), ∃ b2, B.update b i r sc fl = .ok b2) :
    ∀ (fuel k : ℕ) (s : DeployState σ),
      (deployLoop θ dwt ewt rf w φ B fuel k s).1 = fuel ∧
      ∃ s', (deployLoop θ dwt ewt rf w φ B fuel k s).2 = .ok s' := by
  intro fuel
  induction fuel with
  | zero => exact fun k s => ⟨rfl, _, rfl⟩
  | succ n ih =>
    intro k s
    obtain ⟨s1, hs1⟩ := deployStep_ok θ dwt ewt rf w φ B s k hφ hB
    obtain ⟨hlen, s2, hs2⟩ := ih (k + 1) s1
    constructor
    · simp [deployLoop, hs1, hlen]
    · exact ⟨s2, by simp [deployLoop, hs1, hs2]⟩

/-- C8 amended: the loop of `deploy_bandit` has no early exit and no
state-dependent extension of its own; with `waiting_args` supplied, an
executing function that never returns `(0, 0)` (its outputs being
non-negative task counts) and never raises, **and no `bandit.update` call
raising** (every repository strategy raises `ValueError` when the computed
reward leaves `[0, 1]`, which aborts the run early — see
`deploy_max_steps_counterexample`), the loop body runs exactly `max_steps`
times and the function returns normally. -/
theorem deploy_runs_exactly_max_steps {σ : Type} (θ dwt ewt rf w : ℚ)
    (φ : ℚ → ℕ → ℚ × ℚ) (B : BanditOps σ) (b0 : σ) (max_steps : ℕ)
    (hφ : ∀ a k, 0 ≤ (φ a k).1 ∧ 0 ≤ (φ a k).2 ∧
      ¬((φ a k).1 = 0 ∧ (φ a k).2 = 0))
    (hB : ∀ (b : σ) (i : ℕ) (r sc fl : ℚ), ∃ b2, B.update b i r sc fl = .ok b2) :
    (deploy_bandit B b0 φ θ dwt ewt rf (some w) max_steps).1 = max_steps ∧
    ∃ s, (deploy_bandit B b0 φ θ dwt ewt rf (some w) max_steps).2 = .ok s := by
  exact deployLoop_runs_all θ dwt ewt rf w φ B hφ hB max_steps 0
    (DeployState.init b0)

/-- Witness for C8 (amended): a trivial one-arm bandit whose `update` never
raises, a function returning `(1, 0)` every round, three steps. -/
theorem deploy_runs_exactly_max_steps_witness :
    (deploy_bandit (⟨[10], fun st => (0, st), fun st _ _ _ _ => .ok st⟩ :
        BanditOps Unit) () (fun _ _ => ((1 : ℚ), (0 : ℚ)))
      (1/10) 5 10 1 (some 3) 3).1 = 3 ∧
    ∃ s, (deploy_bandit (⟨[10], fun st => (0, st), fun st _ _ _ _ => .ok st⟩ :
        BanditOps Unit) () (fun _ _ => ((1 : ℚ), (0 : ℚ)))
      (1/10) 5 10 1 (some 3) 3).2 = .ok s :=
  deploy_runs_exactly_max_steps (1/10) 5 10 1 3 (fun _ _ => ((1 : ℚ), (0 : ℚ)))
    _ () 3 (fun a k => ⟨by norm_num, by norm_num, by norm_num⟩)
    (fun b i r sc fl => ⟨b, rfl⟩)

/-! ### C1: the WAITING-recovery round -/

/-- C1 counterexample: a WAITING state with remembered
`last_alive_successes = 100`, remembered arm 0, accumulated wait 5, and
`reward_factor = 1` (as the repository's own call site passes), probed
healthily with `(10, 1)` (`fail_fraction = 1/11 < 1/10`, second conjunct).
The recovery reward is `100 / (5 + 5 + 10) * 1 = 5 ∉ [0, 1]`, so
`EpsilonGreedyBandit.update` raises `ValueError` and the round ends in that
exception: the accumulated wait time is not reset and the controller does
not transition back to ALIVE, refuting the claim's unconditional
"resets ... and transitions back to ALIVE". -/
theorem waiting_recovery_counterexample :
    deployStep (1/10) 5 10 1 3 (fun _ _ => ((10 : ℚ), 1))
      (⟨[10], fun b => (0, b), fun b i r _ _ => b.update i r⟩ :
        BanditOps EpsilonGreedyBandit)
      ⟨⟨[10], 1/10, [0], [0]⟩, .waiting, 100, some 0, 0, 5⟩ 0 =
      .error "Reward must be in the range [0, 1]." ∧
    (1 : ℚ) / (10 + 1) < 1/10 := by
  constructor
  · norm_num [deployStep, EpsilonGreedyBandit.update]
  · norm_num

/-- C1 amended: (first conjunct) an ALIVE round whose fail fraction reaches
the threshold remembers the probe's success count in `last_alive_successes`
and the chosen arm in `last_arm_index`, zeroes `waiting_steps`, keeps
accumulating `waiting_time`, and moves to WAITING; (second conjunct) a
WAITING round whose probe comes back healthy (`fail_fraction <
failure_threshold`) calls `bandit.update` at the **remembered** arm index
with reward `last_alive_successes / waiting_time * reward_factor` (the
remembered pre-degradation success count, not the probe's own), success
pseudo-count `successes / waiting_time` from the probe's own result,
failure pseudo-count `waiting_time * 10^6 - success`, where `waiting_time`
is the accumulated wait including this round's
`default_wait_time + extra_wait_time`; **when that update returns
normally** the accumulated wait time is reset to 0 and the controller
transitions back to ALIVE; (third conjunct) when the update raises — as
every repository strategy does if the computed reward leaves `[0, 1]` — the
exception aborts the round with no reset and no transition. -/
theorem waiting_recovery_update {σ : Type} (θ dwt ewt rf w : ℚ)
    (φ : ℚ → ℕ → ℚ × ℚ) (B : BanditOps σ) (s : DeployState σ) (k : ℕ) :
    (∀ succ fail : ℚ, s.mode = .alive →
      φ (B.arms.getD (B.select_arm s.bandit).1 0) k = (succ, fail) →
      succ + fail ≠ 0 → θ ≤ fail / (succ + fail) →
      deployStep θ dwt ewt rf w φ B s k = .ok
        { bandit := (B.select_arm s.bandit).2
          mode := .waiting
          last_alive_successes := succ
          last_arm_index := some (B.select_arm s.bandit).1
          waiting_steps := 0
          waiting_time := s.waiting_time + dwt }) ∧
    (∀ (succ fail : ℚ) (b2 : σ), s.mode = .waiting →
      φ w k = (succ, fail) →
      succ + fail ≠ 0 → fail / (succ + fail) < θ →
      B.update s.bandit (s.last_arm_index.getD 0)
          (s.last_alive_successes / (s.waiting_time + dwt + ewt) * rf)
          (succ / (s.waiting_time + dwt + ewt))
          ((s.waiting_time + dwt + ewt) * 10 ^ 6 -
            succ / (s.waiting_time + dwt + ewt)) = .ok b2 →
      deployStep θ dwt ewt rf w φ B s k = .ok
        { bandit := b2
          mode := .alive
          last_alive_successes := s.last_alive_successes
          last_arm_index := s.last_arm_index
          waiting_steps := s.waiting_steps + 1
          waiting_time := 0 }) ∧
    (∀ (succ fail : ℚ) (e : String), s.mode = .waiting →
      φ w k = (succ, fail) →
      succ + fail ≠ 0 → fail / (succ + fail) < θ →
      B.update s.bandit (s.last_arm_index.getD 0)
          (s.last_alive_successes / (s.waiting_time + dwt + ewt) * rf)
          (succ / (s.waiting_time + dwt + ewt))
          ((s.waiting_time + dwt + ewt) * 10 ^ 6 -
            succ / (s.waiting_time + dwt + ewt)) = .error e →
      deployStep θ dwt ewt rf w φ B s k = .error e) := by
  obtain ⟨b, mode, las, lai, ws, wt⟩ := s
  refine ⟨?_, ?_, ?_⟩
  · rintro succ fail hmode hφk hsum hθ
    cases mode with
    | waiting => exact absurd hmode (by simp)
    | alive =>
      simp only [deployStep, hφk, if_neg hsum]
      rw [if_pos hθ]
  · rintro succ fail b2 hmode hφk hsum hθ hup
    cases mode with
    | alive => exact absurd hmode (by simp)
    | waiting =>
      simp only [deployStep, hφk, if_neg hsum]
      rw [if_pos hθ]
      simp only at hup
      rw [hup]
  · rintro succ fail e hmode hφk hsum hθ hup
    cases mode with
    | alive => exact absurd hmode (by simp)
    | waiting =>
      simp only [deployStep, hφk, if_neg hsum]
      rw [if_pos hθ]
      simp only at hup
      rw [hup]

/-- Witness for C1 (amended), exercising all three conjuncts.  A logging
bandit records the `update` call: an ALIVE round with probe `(5, 5)` at
threshold 1/10 moves to WAITING remembering arm 1 and 5 successes; a
WAITING round (entered with `last_alive_successes = 7`,
`last_arm_index = 1`, accumulated wait 5) whose probe returns `(10, 1)`
logs an update on arm 1 with reward `7/20`, pseudo-counts `10/20` and
`20·10^6 − 10/20`, resets the wait time and returns to ALIVE; and with
`EpsilonGreedyBandit` and a remembered success count of 100 the computed
reward 5 makes the update raise, aborting the round. -/
theorem waiting_recovery_update_witness :
    deployStep (1/10) 5 10 1 3 (fun _ _ => ((5 : ℚ), (5 : ℚ)))
      (⟨[10, 20], fun st => (1, st), fun st i r s f => .ok ((i, r, s, f) :: st)⟩ :
        BanditOps (List (ℕ × ℚ × ℚ × ℚ)))
      ⟨[], .alive, 0, none, 0, 0⟩ 0 = .ok
        { bandit := []
          mode := .waiting
          last_alive_successes := 5
          last_arm_index := some 1
          waiting_steps := 0
          waiting_time := 0 + 5 } ∧
    deployStep (1/10) 5 10 1 3 (fun _ _ => ((10 : ℚ), (1 : ℚ)))
      (⟨[10, 20], fun st => (1, st), fun st i r s f => .ok ((i, r, s, f) :: st)⟩ :
        BanditOps (List (ℕ × ℚ × ℚ × ℚ)))
      ⟨[], .waiting, 7, some 1, 0, 5⟩ 0 = .ok
        { bandit := [(1, 7 / (5 + 5 + 10) * 1, 10 / (5 + 5 + 10),
            (5 + 5 + 10) * 10 ^ 6 - 10 / (5 + 5 + 10))]
          mode := .alive
          last_alive_successes := 7
          last_arm_index := some 1
          waiting_steps := 0 + 1
          waiting_time := 0 } ∧
    deployStep (1/10) 5 10 1 3 (fun _ _ => ((10 : ℚ), (1 : ℚ)))
      (⟨[10], fun b => (0, b), fun b i r _ _ => b.update i r⟩ :
        BanditOps EpsilonGreedyBandit)
      ⟨⟨[10], 1/10, [0], [0]⟩, .waiting, 100, some 0, 0, 5⟩ 0 =
      .error "Reward must be in the range [0, 1]." :=
  ⟨(waiting_recovery_update (1/10) 5 10 1 3 (fun _ _ => ((5 : ℚ), (5 : ℚ)))
      _ ⟨[], .alive, 0, none, 0, 0⟩ 0).1 5 5 rfl rfl (by norm_num)
      (by norm_num),
   (waiting_recovery_update (1/10) 5 10 1 3 (fun _ _ => ((10 : ℚ), (1 : ℚ)))
      _ ⟨[], .waiting, 7, some 1, 0, 5⟩ 0).2.1 10 1 _ rfl rfl (by norm_num)
      (by norm_num) rfl,
   (waiting_recovery_update (1/10) 5 10 1 3 (fun _ _ => ((10 : ℚ), (1 : ℚ)))
      (⟨[10], fun b => (0, b), fun b i r _ _ => b.update i r⟩ :
        BanditOps EpsilonGreedyBandit)
      ⟨⟨[10], 1/10, [0], [0]⟩, .waiting, 100, some 0, 0, 5⟩ 0).2.2 10 1 _
      rfl rfl (by norm_num) (by norm_num)
      (by norm_num [EpsilonGreedyBandit.update])⟩

/-! ### C5: UCB1 selection -/


theorem find?_range'_eq_some (p : ℕ → Bool) :
    ∀ (n s i : ℕ), s ≤ i → i < s + n → p i = true →
      (∀ j, s ≤ j → j < i → p j = false) →
      (List.range' s n).find? p = some i := by
  intro n
  induction n with
  | zero => intro s i h1 h2 _ _; omega
  | succ n ih =>
    intro s i h1 h2 hp hprev
    rw [List.range'_succ, List.find?_cons]
    by_cases his : i = s
    · subst his
      simp [hp]
    · have hps : p s = false := hprev s le_rfl (by omega)
      simp only [hps]
      exact ih (s + 1) i (by omega) (by omega) hp
        (fun j hj1 hj2 => hprev j (by omega) hj2)

theorem getD_replicate_append_left {i m j : ℕ} (h : j < i) :
    ((List.replicate i (1 : ℕ)) ++ List.replicate m 0).getD j 0 = 1 := by
  rw [List.getD_append _ _ _ _ (by simpa using h)]
  exact getD_replicate _ _ _ _ h

theorem getD_replicate_append_right {i m j : ℕ} (h1 : i ≤ j) (h2 : j < i + m) :
    ((List.replicate i (1 : ℕ)) ++ List.replicate m 0).getD j 0 = 0 := by
  rw [List.getD_append_right _ _ _ _ (by simpa using h1)]
  refine getD_replicate _ _ _ _ ?_
  simpa using by omega

theorem set_replicate_append (i m : ℕ) :
    ((List.replicate i (1 : ℕ)) ++ List.replicate (m + 1) 0).set i 1 =
      List.replicate (i + 1) 1 ++ List.replicate m 0 := by
  induction i with
  | zero => simp [List.replicate_succ]
  | succ n ih =>
    rw [List.replicate_succ, List.cons_append, List.set_cons_succ,
      List.replicate_succ 1 (n + 1), List.cons_append, ih]

/-- When the first `i` arms have been pulled once and the remaining `m + 1`
arms never, UCB1 selects arm `i`. -/
theorem ucb_select_first_zero (b : UCB1Bandit) (i m : ℕ)
    (harms : b.arms.length = i + (m + 1))
    (hcounts : b.counts = List.replicate i 1 ++ List.replicate (m + 1) 0) :
    b.select_arm = i := by
  rw [UCB1Bandit.select_arm]
  have hfind : (List.range b.arms.length).find?
      (fun j => b.counts.getD j 0 == 0) = some i := by
    rw [List.range_eq_range' b.arms.length]
    refine find?_range'_eq_some _ b.arms.length 0 i (by omega) (by omega) ?_ ?_
    · rw [hcounts]
      rw [getD_replicate_append_right le_rfl (by omega)]
      rfl
    · intro j _ hj
      rw [hcounts, getD_replicate_append_left hj]
      rfl
  rw [hfind]

/-- A valid UCB1 update succeeds, keeps the arm list and bumps the selected
count. -/
theorem ucb_update_spec (b : UCB1Bandit) (i : ℕ) (r : ℚ) (h0 : 0 ≤ r)
    (h1 : r ≤ 1) :
    ∃ b', b.update i r = .ok b' ∧ b'.arms = b.arms ∧
      b'.counts = b.counts.set i (b.counts.getD i 0 + 1) := by
  rw [UCB1Bandit.update, if_neg (not_not_intro ⟨h0, h1⟩)]
  exact ⟨_, rfl, rfl, rfl⟩

/-- Round-robin kernel: from a state where arms `0, …, i-1` each have one
pull and the remaining `m` arms none, `m` select/update rounds visit arms
`i, i+1, …, i+m-1` in order. -/
theorem ucbRun_round_robin (rs : ℕ → ℚ) (hrs : ∀ j, 0 ≤ rs j ∧ rs j ≤ 1) :
    ∀ (m i k : ℕ) (b : UCB1Bandit), b.arms.length = i + m →
      b.counts = List.replicate i 1 ++ List.replicate m 0 →
      ∃ bf, ucbRun rs k m b = .ok (List.range' i m, bf) := by
  intro m
  induction m with
  | zero => exact fun i k b _ _ => ⟨b, rfl⟩
  | succ n ih =>
    intro i k b harms hcounts
    have hsel : b.select_arm = i := ucb_select_first_zero b i n harms hcounts
    obtain ⟨b', hup, hba, hbc⟩ :=
      ucb_update_spec b i (rs k) (hrs k).1 (hrs k).2
    have hbc' : b'.counts = List.replicate (i + 1) 1 ++ List.replicate n 0 := by
      rw [hbc, hcounts, getD_replicate_append_right le_rfl (by omega)]
      exact set_replicate_append i n
    have hba' : b'.arms.length = (i + 1) + n := by
      rw [hba]
      omega
    obtain ⟨bf, hbf⟩ := ih (i + 1) (k + 1) b' hba' hbc'
    refine ⟨bf, ?_⟩
    simp only [ucbRun, hsel, hup, hbf]
    rw [List.range'_succ]

theorem init_le_foldl_max {α : Type} [LinearOrder α] :
    ∀ (l : List α) (x : α), x ≤ l.foldl max x := by
  intro l
  induction l with
  | nil => exact fun x => le_rfl
  | cons y l ih => exact fun x => le_trans (le_max_left x y) (ih (max x y))

theorem mem_le_foldl_max {α : Type} [LinearOrder α] :
    ∀ (l : List α) (x a : α), a ∈ l → a ≤ l.foldl max x := by
  intro l
  induction l with
  | nil => intro x a ha; cases ha
  | cons y l ih =>
    intro x a ha
    rcases List.mem_cons.mp ha with ha | ha
    · subst ha
      exact le_trans (le_max_right x a) (init_le_foldl_max l (max x a))
    · exact ih (max x y) a ha

theorem foldl_max_mem {α : Type} [LinearOrder α] :
    ∀ (l : List α) (x : α), l.foldl max x = x ∨ l.foldl max x ∈ l := by
  intro l
  induction l with
  | nil => exact fun x => Or.inl rfl
  | cons y l ih =>
    intro x
    rcases ih (max x y) with h | h
    · rcases max_choice x y with hm | hm
      · exact Or.inl (by rw [List.foldl_cons, h, hm])
      · exact Or.inr (by rw [List.foldl_cons, h, hm]; exact List.mem_cons_self y l)
    · exact Or.inr (List.mem_cons_of_mem y h)

theorem listMax_mem {α : Type} [LinearOrder α] (d x : α) (xs : List α) :
    listMax d (x :: xs) ∈ x :: xs := by
  rw [listMax]
  rcases foldl_max_mem xs x with h | h
  · rw [h]
    exact List.mem_cons_self x xs
  · exact List.mem_cons_of_mem x h

theorem le_listMax {α : Type} [LinearOrder α] (d x a : α) (xs : List α)
    (ha : a ∈ x :: xs) : a ≤ listMax d (x :: xs) := by
  rw [listMax]
  rcases List.mem_cons.mp ha with h | h
  · subst h
    exact init_le_foldl_max xs a
  · exact mem_le_foldl_max xs x a h

theorem idxOfMax_lt_length (l : List ℝ) (h : l ≠ []) :
    idxOfMax l < l.length := by
  rcases l with _ | ⟨x, xs⟩
  · exact absurd rfl h
  · exact List.indexOf_lt_length.mpr (listMax_mem 0 x xs)

theorem getD_idxOfMax (l : List ℝ) (h : l ≠ []) :
    l.getD (idxOfMax l) 0 = listMax 0 l := by
  rcases l with _ | ⟨x, xs⟩
  · exact absurd rfl h
  · have hm := listMax_mem 0 x xs
    have hlt : (x :: xs).indexOf (listMax 0 (x :: xs)) < (x :: xs).length :=
      List.indexOf_lt_length.mpr hm
    rw [idxOfMax, List.getD_eq_getElem _ _ hlt]
    exact List.getElem_indexOf hlt

theorem getD_le_getD_idxOfMax (l : List ℝ) :
    ∀ j < l.length, l.getD j 0 ≤ l.getD (idxOfMax l) 0 := by
  intro j hj
  rcases l with _ | ⟨x, xs⟩
  · cases hj
  · rw [getD_idxOfMax _ (by simp)]
    refine le_listMax 0 x _ xs ?_
    rw [List.getD_eq_getElem _ _ hj]
    exact List.getElem_mem hj

/-- C5: (first conjunct) starting from a fresh UCB1 bandit over any arm
list, running one select/update round per arm (with any valid rewards)
selects every arm index exactly once, in increasing index order — a zero
pull count takes priority in index order; (second conjunct) once every arm
has a positive pull count, `select_arm` returns an index `j` below the
number of arms whose UCB value `q_values[j] + sqrt(2*ln(total_count)/
counts[j])` is maximal among all arms (the first such index, via Python's
`list.index(max(...))`). -/
theorem ucb1_selection :
    (∀ (arms : List ℚ) (rs : ℕ → ℚ), (∀ j, 0 ≤ rs j ∧ rs j ≤ 1) →
      ∃ bf, ucbRun rs 0 arms.length (UCB1Bandit.mk0 arms) =
        .ok (List.range arms.length, bf)) ∧
    (∀ b : UCB1Bandit, 0 < b.arms.length → b.counts.length = b.arms.length →
      (∀ j < b.counts.length, b.counts.getD j 0 ≠ 0) →
      b.select_arm < b.arms.length ∧
      ∀ j < b.arms.length, b.ucbValue j ≤ b.ucbValue b.select_arm) := by
  constructor
  · intro arms rs hrs
    obtain ⟨bf, hbf⟩ := ucbRun_round_robin rs hrs arms.length 0 0
      (UCB1Bandit.mk0 arms) (by simp [UCB1Bandit.mk0]) (by simp [UCB1Bandit.mk0])
    exact ⟨bf, by rwa [List.range_eq_range' arms.length]⟩
  · intro b hn hlen hpos
    have hfind : (List.range b.arms.length).find?
        (fun j => b.counts.getD j 0 == 0) = none := by
      refine List.find?_eq_none.mpr ?_
      intro x hx
      simp only [List.mem_range] at hx
      simpa using hpos x (by omega)
    have hsel : b.select_arm = idxOfMax b.ucbValues := by
      rw [UCB1Bandit.select_arm, hfind]
    have hlen2 : b.ucbValues.length = b.arms.length := by
      simp [UCB1Bandit.ucbValues]
    have hne : b.ucbValues ≠ [] := by
      intro h
      rw [h] at hlen2
      simp at hlen2
      omega
    have hidx : idxOfMax b.ucbValues < b.ucbValues.length :=
      idxOfMax_lt_length _ hne
    have hval : ∀ j < b.ucbValues.length,
        b.ucbValues.getD j 0 ≤ b.ucbValues.getD (idxOfMax b.ucbValues) 0 :=
      getD_le_getD_idxOfMax _
    have hget : ∀ j (hj : j < b.arms.length), b.ucbValues.getD j 0 = b.ucbValue j := by
      intro j hj
      rw [List.getD_eq_getElem _ _ (by omega)]
      simp [UCB1Bandit.ucbValues]
    constructor
    · rw [hsel]
      omega
    · intro j hj
      rw [hsel, ← hget j hj, ← hget (idxOfMax b.ucbValues) (by omega)]
      exact hval j (by omega)

/-- Witness for C5: two fresh arms are visited in order `[0, 1]`, and a
state with both arms pulled once selects a maximizing index. -/
theorem ucb1_selection_witness :
    (∃ bf, ucbRun (fun _ => 1/2) 0 ([(10 : ℚ), 20]).length
        (UCB1Bandit.mk0 [10, 20]) =
        .ok (List.range ([(10 : ℚ), 20]).length, bf)) ∧
    ((⟨[10, 20], 2, [0, 0], [1, 1]⟩ : UCB1Bandit).select_arm <
        (⟨[10, 20], 2, [0, 0], [1, 1]⟩ : UCB1Bandit).arms.length ∧
      ∀ j < (⟨[10, 20], 2, [0, 0], [1, 1]⟩ : UCB1Bandit).arms.length,
        (⟨[10, 20], 2, [0, 0], [1, 1]⟩ : UCB1Bandit).ucbValue j ≤
          (⟨[10, 20], 2, [0, 0], [1, 1]⟩ : UCB1Bandit).ucbValue
            (⟨[10, 20], 2, [0, 0], [1, 1]⟩ : UCB1Bandit).select_arm) :=
  ⟨ucb1_selection.1 [10, 20] (fun _ => 1/2)
      (fun _ => ⟨by norm_num, by norm_num⟩),
   ucb1_selection.2 ⟨[10, 20], 2, [0, 0], [1, 1]⟩ (by decide) (by decide)
     (by decide)⟩
